import Mathlib

/-!
Verification of the grpcmock expectation/formatting/invocation core.

This file shallowly embeds the relevant parts of the repository:

* the `baseExpectation` call-count bookkeeping (`Fulfilled`, `RemainTimes`,
  `FulfilledTimes`);
* the diagnostic formatter of `format/format.go` (`formatRequestTimes`,
  `formatValue`, `formatValueInline`, `formatType`);
* `parseMethod` (target/method-path splitting via `net/url` parsing);
* the reflection-based stream drainer `RecvAll` together with
  `newMessageValue` and `newSliceMessageValue`.

Go machine integers are embedded as `Nat`/`Int`; the `uint` counters of the
expectation record are 64-bit, so the increment of `fulfilledTimes` is taken
modulo `2 ^ 64` (the decrement of `repeatTimes` is guarded by `> 0` in the
source and cannot wrap).  Reflection values are embedded as a small inductive
universe of base messages, pointers and slices; pointer allocation freshness
is made observable by threading an allocation counter, each `reflect.New`
consuming one fresh identifier.
-/

namespace Grpcmock

/-! ## Expectation record counters (`baseExpectation`) -/

/-- State of a `baseExpectation` relevant to call-count bookkeeping.
`repeatTimes` is the remaining permitted number of matches (0 = unlimited),
`fulfilledTimes` the number of completed matches, both Go `uint` (64-bit). -/
structure BaseExpectation where
  repeatTimes : Nat
  fulfilledTimes : Nat
deriving DecidableEq, Repr

/-- Modulus of Go's `uint` on 64-bit platforms. -/
def uintMod : Nat := 2 ^ 64

/-- `Fulfilled()` : decrements `repeatTimes` when positive and increments
`fulfilledTimes` (a `uint` increment, hence modulo `2 ^ 64`). -/
def Fulfilled (e : BaseExpectation) : BaseExpectation :=
  { repeatTimes := if e.repeatTimes > 0 then e.repeatTimes - 1 else e.repeatTimes
    fulfilledTimes := (e.fulfilledTimes + 1) % uintMod }

/-- `RemainTimes()` returns `repeatTimes`. -/
def RemainTimes (e : BaseExpectation) : Nat := e.repeatTimes

/-- `FulfilledTimes()` returns `fulfilledTimes`. -/
def FulfilledTimes (e : BaseExpectation) : Nat := e.fulfilledTimes

/-- `withTimes(t)` : the builder-side setter for `repeatTimes`. -/
def withTimes (t : Nat) (e : BaseExpectation) : BaseExpectation :=
  { e with repeatTimes := t }

/-- A freshly created expectation configured with `repeatTimes = n`
(zero-valued record followed by `withTimes`). -/
def mkExpectation (n : Nat) : BaseExpectation :=
  withTimes n { repeatTimes := 0, fulfilledTimes := 0 }

/-- `k` successive calls to `Fulfilled()`. -/
def fulfilledIter : Nat → BaseExpectation → BaseExpectation
  | 0, e => e
  | k + 1, e => fulfilledIter k (Fulfilled e)


/-! ## Value formatter (`format/format.go`)

The formatter dispatches over a closed set of value kinds.  That set is
embedded as the inductive `MValue`:

* `vNil` — a nil interface value;
* `bytes s` / `str s` — a raw `[]byte` / `string` with content `s`;
* `exact d` — a `matcher.ExactMatcher` whose `Expected()` is `d`
  (modelled from the spec: the matcher library is an external collaborator
  exposing an "expected description");
* `fn d` — a `grpcMatcher.FnMatcher` whose `Expected()` is `d`;
* `callback m` — a `matcher.Callback` whose `Matcher()` is `m`;
* `payloadNilPtr` — a nil `*grpcMatcher.PayloadMatcher` behind the interface;
* `payloadPtr m` — a non-nil `*grpcMatcher.PayloadMatcher` whose `Matcher()`
  is `m`;
* `otherMatcher ty d` — any other `matcher.Matcher` with Go type name `ty`
  (its `%T`) and `Expected()` equal to `d`;
* `otherValue ty nilEq d` — any other value: Go type name `ty`, whether it is
  a nil-equivalent under deep-nil inspection, and its serialized form `d`
  (the structured-value serializer is modelled as total; its failure is a
  `must.NotFail` hard abort in the source and is outside every claim).
-/

/-- Modelled from the spec: the Method Descriptor (`service.Method`, a
collaborator package not under `src/`): a method kind (`svc.MethodType`) and
the fully-qualified name returned by `svc.FullName()`. -/
structure Method where
  methodType : String
  fullName : String
deriving DecidableEq, Repr

/-- The closed universe of header/payload values the formatter receives. -/
inductive MValue where
  | vNil : MValue
  | bytes : String → MValue
  | str : String → MValue
  | exact : String → MValue
  | fn : String → MValue
  | callback : MValue → MValue
  | payloadNilPtr : MValue
  | payloadPtr : MValue → MValue
  | otherMatcher : String → String → MValue
  | otherValue : String → Bool → String → MValue
deriving DecidableEq, Repr

/-- Modelled from the spec: deep-nil inspection (`grpcReflect.IsNil`,
repository code not under `src/`): true on nil interfaces, on typed nil
pointers such as a nil `*PayloadMatcher`, and on values flagged as
nil-equivalent. -/
def IsNil : MValue → Bool
  | MValue.vNil => true
  | MValue.payloadNilPtr => true
  | MValue.otherValue _ nilEq _ => nilEq
  | _ => false

/-- `formatValue` of `format/format.go`: the block/payload dispatch. -/
def formatValue : MValue → String
  | MValue.vNil => "<nil>"
  | MValue.bytes s => s
  | MValue.str s => s
  | MValue.callback inner => formatValue inner
  | MValue.fn e => if e = "" then "matches custom expectation" else e
  | MValue.payloadNilPtr => ""
  | MValue.payloadPtr inner => formatValue inner
  | MValue.exact e => e
  | MValue.otherMatcher _ e => e
  | MValue.otherValue _ nilEq data => if nilEq then "" else data

/-- `formatValueInline`: the inline/header dispatch.  `none` models the
`panic("unknown value type")` on a value outside the accepted variants. -/
def formatValueInline : MValue → Option String
  | MValue.vNil => some "<nil>"
  | MValue.exact e => some (formatValue (MValue.exact e))
  | MValue.fn e => some (formatValue (MValue.fn e))
  | MValue.bytes s => some (formatValue (MValue.bytes s))
  | MValue.str s => some (formatValue (MValue.str s))
  | MValue.callback inner => formatValueInline inner
  | MValue.payloadNilPtr => some ""
  | MValue.payloadPtr inner => formatValueInline inner
  | MValue.otherMatcher ty e => some (ty ++ "(\"" ++ e ++ "\")")
  | MValue.otherValue _ nilEq _ => if nilEq then some "" else none

/-- `formatType`: the `" using <type>"` diagnostic tag. -/
def formatType : MValue → String
  | MValue.vNil => ""
  | MValue.bytes _ => ""
  | MValue.str _ => ""
  | MValue.exact _ => ""
  | MValue.fn _ => ""
  | MValue.callback inner => formatType inner
  | MValue.payloadNilPtr => ""
  | MValue.payloadPtr inner => formatType inner
  | MValue.otherMatcher ty _ => " using " ++ ty
  | MValue.otherValue ty nilEq _ => if nilEq then "" else " using " ++ ty

/-- Byte-wise lexicographic comparison of character lists, the order
`sort.Strings` uses (it coincides with Go's byte-wise order on the ASCII
keys formatted here). -/
def lexLe : List Char → List Char → Bool
  | [], _ => true
  | _ :: _, [] => false
  | a :: as, b :: bs => if a < b then true else if b < a then false else lexLe as bs

/-- Lexicographic `≤` on strings (executable). -/
def strLe (a b : String) : Bool := lexLe a.data b.data

/-- `sort.Strings` on the header keys: a sorted permutation of the input. -/
def sortKeys (ks : List String) : List String :=
  List.insertionSort (fun a b => strLe a b = true) ks

/-- Four-space indentation unit (`indent` constant of the source). -/
def indentU : String := "    "

/-- The `(called: T time(s), remaining: R time(s))` suffix text. -/
def callSuffix (totalCalls remainingCalls : Int) : String :=
  " (called: " ++ toString totalCalls ++ " time(s), remaining: " ++
    toString remainingCalls ++ " time(s))"

/-- The method line without any call-count suffix. -/
def baseMethodLine (svc : Method) : String :=
  svc.methodType ++ " " ++ svc.fullName

/-- The first output line: method kind, full name, and the conditional
call-count suffix with the source's exact guard
`remainingCalls > 0 && (totalCalls != 0 || remainingCalls != 1)`. -/
def methodLine (svc : Method) (totalCalls remainingCalls : Int) : String :=
  baseMethodLine svc ++
    (if 0 < remainingCalls ∧ (totalCalls ≠ 0 ∨ remainingCalls ≠ 1) then
      callSuffix totalCalls remainingCalls
    else "")

/-- The per-key header lines, iterated over the (sorted) key list; a map
access `header[key]` on a missing key yields the nil interface, exactly as
`(List.lookup k hdr).getD MValue.vNil` does.  The `Bool` is `false` when
`formatValueInline` panicked, in which case the written-so-far prefix is
kept (earlier lines were already written to the sink). -/
def headerLines (hdr : List (String × MValue)) : List String → String × Bool
  | [] => ("", true)
  | k :: rest =>
    match formatValueInline ((List.lookup k hdr).getD MValue.vNil) with
    | none => ("", false)
    | some s =>
      let r := headerLines hdr rest
      (indentU ++ indentU ++ k ++ ": " ++ s ++ "\n" ++ r.1, r.2)

/-- The `with header:` block (only called on a non-empty header). -/
def headerBlock (hdr : List (String × MValue)) : String × Bool :=
  let r := headerLines hdr (sortKeys (hdr.map Prod.fst))
  (indentU ++ "with header:\n" ++ r.1, r.2)

/-- The `with payload` block: written only when the payload is not a
nil-equivalent and its formatted body is non-empty. -/
def payloadBlock (payload : MValue) : String :=
  if IsNil payload then ""
  else if formatValue payload = "" then ""
  else
    indentU ++ "with payload" ++ formatType payload ++ "\n" ++
      indentU ++ indentU ++ formatValue payload ++ "\n"

/-- `formatRequestTimes`: the whole rendering pipeline.  The `String` is
everything written to the sink (the prefix written so far if a header value
panicked), the `Bool` is `true` when no panic occurred. -/
def formatRequestTimes (svc : Method) (hdr : List (String × MValue))
    (payload : MValue) (totalCalls remainingCalls : Int) : String × Bool :=
  let hb := if hdr.length > 0 then headerBlock hdr else ("", true)
  (methodLine svc totalCalls remainingCalls ++ "\n" ++ hb.1 ++
    (if hb.2 then payloadBlock payload else ""), hb.2)

/-- A concrete method descriptor used by the concrete-instance theorems. -/
def svcExample : Method :=
  { methodType := "Unary", fullName := "grpctest.ItemService/GetItem" }

/-! ## `parseMethod` (invoker) and the `net/url` fragment it relies on

`parseMethod` calls Go's `url.Parse` and then rebuilds the dial target from
the scheme/user/host of the parsed URL while `"/" + strings.TrimLeft(u.Path,
"/")` becomes the method path.  `net/url` is external standard-library code;
the fragment modelled here covers URLs without query, fragment or percent
escapes (none of the claims involve those): scheme detection (letters then
alphanumeric/`+`/`-`/`.` up to a `:`', lowercased), `//authority` splitting
at the next `/`, userinfo splitting at the last `@`, opaque handling for
`scheme:rest` forms, and plain relative paths.  `url.Parse` failures
(control characters, `://`-prefixed input, …) are outside this fragment and
outside every claim.
-/

/-- The parts of a parsed `url.URL` that `parseMethod` consumes. -/
structure URL where
  scheme : String
  user : Option String
  host : String
  path : String
  opq : String
deriving DecidableEq, Repr

/-- The error values `parseMethod` can produce; `missingMethod` is the
repository's `ErrMissingMethod` (modelled from the spec: a missing-method
error value, declared outside `src/`). -/
inductive ParseErr where
  | missingMethod : ParseErr
deriving DecidableEq, Repr

/-- ASCII lower-casing, as `url.Parse` applies to the scheme. -/
def asciiLower (c : Char) : Char :=
  if c.toNat ≥ 65 ∧ c.toNat ≤ 90 then Char.ofNat (c.toNat + 32) else c

/-- Scheme characters after the first: letters, digits, `+`, `-`, `.`. -/
def isSchemeTailChar (c : Char) : Bool :=
  c.isAlpha || c.isDigit || c == '+' || c == '-' || c == '.'

/-- Scheme detection of `url.Parse`: the prefix before the first `:` when it
is a non-empty letter-led run of scheme characters; `none` otherwise (the
input is then treated as scheme-less). -/
def findSchemeAux (acc : List Char) : List Char → Option (List Char × List Char)
  | [] => none
  | c :: rest =>
    if c == ':' then
      if acc.isEmpty then none else some (acc.reverse, rest)
    else if (if acc.isEmpty then c.isAlpha else isSchemeTailChar c) then
      findSchemeAux (c :: acc) rest
    else none

/-- Userinfo splitting of `parseAuthority`: at the last `@`. -/
def splitUserinfo (auth : List Char) : Option String × String :=
  let revTail := auth.reverse.takeWhile (fun c => c ≠ '@')
  if revTail.length = auth.length then (none, String.mk auth)
  else (some (String.mk (auth.take (auth.length - revTail.length - 1))),
    String.mk revTail.reverse)

/-- The rest of `url.Parse` once the scheme is split off. -/
def parseAfterScheme (scheme : String) (rest : List Char) : URL :=
  match rest with
  | '/' :: '/' :: tail =>
    let auth := tail.takeWhile (fun c => c ≠ '/')
    let pathCs := tail.dropWhile (fun c => c ≠ '/')
    let us := splitUserinfo auth
    { scheme := scheme, user := us.1, host := us.2,
      path := String.mk pathCs, opq := "" }
  | _ =>
    if scheme ≠ "" ∧ rest ≠ [] ∧ rest.head? ≠ some '/' then
      { scheme := scheme, user := none, host := "", path := "",
        opq := String.mk rest }
    else
      { scheme := scheme, user := none, host := "", path := String.mk rest,
        opq := "" }

/-- The modelled `url.Parse` fragment. -/
def urlParse (s : String) : URL :=
  match findSchemeAux [] s.data with
  | some (sch, rest) => parseAfterScheme (String.mk (sch.map asciiLower)) rest
  | none => parseAfterScheme "" s.data

/-- `strings.TrimLeft(s, "/")`. -/
def trimLeftSlash (s : String) : String :=
  String.mk (s.data.dropWhile (fun c => c == '/'))

/-- `url.URL.String()` for a URL holding only scheme, user and host, exactly
as `parseMethod` rebuilds the dial target. -/
def addrString (u : URL) : String :=
  (if u.scheme = "" then "" else u.scheme ++ ":") ++
    (if u.host = "" ∧ u.user = none then ""
    else "//" ++ (match u.user with | some s => s ++ "@" | none => "") ++ u.host)

/-- The target/method split of `parseMethod`, given the parsed URL. -/
def parseMethodFromURL (u : URL) : Except ParseErr (String × String) :=
  let m := "/" ++ trimLeftSlash u.path
  let addr : URL :=
    { scheme := u.scheme, user := u.user, host := u.host, path := "", opq := "" }
  if m = "/" then Except.error ParseErr.missingMethod
  else Except.ok (addrString addr, m)

/-- `parseMethod` of the invoker. -/
def parseMethod (method : String) : Except ParseErr (String × String) :=
  parseMethodFromURL (urlParse method)

/-! ## `RecvAll` and the reflection helpers

`RecvAll(out)` inspects `out` by reflection, drains a server stream into a
freshly made slice, and writes that slice through the pointer `out` on the
end-of-stream path only.  The reflection universe is embedded as `RType`
(a base message type, pointers and slices over it) and `RValue`.  Each
`reflect.New` consumes one identifier from a threaded allocation counter,
making allocation freshness provable.  A stream is embedded as the list of
message payloads it yields in order, followed by a terminal event: `none`
for `io.EOF`, `some e` for a receive error with text `e`.  Received messages
are base values (the per-message decoding of the transport is the external
collaborator). -/

/-- Go types as reflection sees them in `RecvAll`. -/
inductive RType where
  | base : RType
  | ptr : RType → RType
  | slice : RType → RType
deriving DecidableEq, Repr

/-- Go values: base messages carry their payload, pointers carry the
allocation identifier of their `reflect.New` cell, slices carry their
element type. -/
inductive RValue where
  | base : Nat → RValue
  | ptr : Nat → RValue → RValue
  | slice : RType → List RValue → RValue

/-- The `%T` type name of a value of the given type (the base message type
is rendered `T`). -/
def goTypeName : RType → String
  | RType.base => "T"
  | RType.ptr t => "*" ++ goTypeName t
  | RType.slice t => "[]" ++ goTypeName t

/-- The argument `RecvAll` receives: a nil interface, a non-pointer value
(of the given non-pointer type), or a pointer to a cell with the given
pointee type and current contents. -/
inductive OutArg where
  | nilIface : OutArg
  | nonPtr : RType → OutArg
  | ptrTo : RType → RValue → OutArg

/-- `newMessageValue(t)`: drill through pointer types, then `reflect.New`
the underlying type — one fresh allocation holding that type's zero value.
Returns the new pointer value and the advanced allocation counter. -/
def newMessageValue : RType → Nat → RValue × Nat
  | RType.ptr t, c => newMessageValue t c
  | RType.base, c => (RValue.ptr c (RValue.base 0), c + 1)
  | RType.slice t, c => (RValue.ptr c (RValue.slice t []), c + 1)

/-- `newSliceMessageValue(t, v)`: rebuild the element type's pointer layers
around `v`, allocating a fresh cell (`reflect.New`) per layer. -/
def newSliceMessageValue : RType → RValue → Nat → RValue × Nat
  | RType.ptr t, v, c =>
    let inner := newSliceMessageValue t v (c + 1)
    (RValue.ptr c inner.1, inner.2)
  | RType.base, v, c => (v, c)
  | RType.slice _, v, c => (v, c)

/-- The receive loop of `RecvAll`: each iteration allocates a message via
`newMessageValue`, receives into it, and on success appends
`newSliceMessageValue` of the received base value (`appendMessage`); `EOF`
breaks out with the accumulated list, any other receive error aborts with
the `could not recv msg` wrap. -/
def recvLoop (elemT : RType) : List Nat → Option String → List RValue → Nat →
    Except String (List RValue) × Nat
  | [], term, acc, c =>
    let a := newMessageValue elemT c
    match term with
    | none => (Except.ok acc, a.2)
    | some e => (Except.error ("could not recv msg: " ++ e), a.2)
  | m :: rest, term, acc, c =>
    let a := newMessageValue elemT c
    let b := newSliceMessageValue elemT (RValue.base m) a.2
    recvLoop elemT rest term (acc ++ [b.1]) b.2

/-- The handler returned by `RecvAll(out)`, applied to a stream: returns the
handler's result, the final state of the argument (the pointee cell is
replaced only on the success path), and the final allocation counter. -/
def RecvAll (out : OutArg) (msgs : List Nat) (term : Option String) (c : Nat) :
    Except String Unit × OutArg × Nat :=
  match out with
  | OutArg.nilIface => (Except.error "<nil> is not a pointer", out, c)
  | OutArg.nonPtr t => (Except.error (goTypeName t ++ " is not a pointer"), out, c)
  | OutArg.ptrTo pt cell =>
    match pt with
    | RType.slice elemT =>
      let r := recvLoop elemT msgs term [] c
      match r.1 with
      | Except.error e => (Except.error e, OutArg.ptrTo pt cell, r.2)
      | Except.ok acc =>
        (Except.ok (), OutArg.ptrTo pt (RValue.slice elemT acc), r.2)
    | _ => (Except.error ("*" ++ goTypeName pt ++ " is not a slice"), out, c)

/-- Pointer-chain payload of a drained element: drill pointers to the base. -/
def payloadOf : RValue → Option Nat
  | RValue.base m => some m
  | RValue.ptr _ v => payloadOf v
  | RValue.slice _ _ => none

/-- Allocation identifiers along a pointer chain. -/
def chainIds : RValue → List Nat
  | RValue.ptr i v => i :: chainIds v
  | _ => []

/-- All allocation identifiers of a list of drained elements. -/
def idsList (l : List RValue) : List Nat :=
  l.foldr (fun v acc => chainIds v ++ acc) []

/-- Number of pointer layers of a type. -/
def ptrDepth : RType → Nat
  | RType.ptr t => ptrDepth t + 1
  | _ => 0

/-- Closed form of `newSliceMessageValue` on a base value: the pointer
layers carry the consecutive identifiers `c, c+1, …`. -/
def wrapPtrs : RType → Nat → Nat → RValue
  | RType.ptr t, m, c => RValue.ptr c (wrapPtrs t m (c + 1))
  | RType.base, m, _ => RValue.base m
  | RType.slice _, m, _ => RValue.base m

/-- Closed form of the elements accumulated by the receive loop. -/
def buildL (t : RType) : List Nat → Nat → List RValue
  | [], _ => []
  | m :: rest, c => wrapPtrs t m (c + 1) :: buildL t rest (c + ptrDepth t + 1)

/-! ## Theorems: expectation record counters (C1) -/

theorem Fulfilled_repeatTimes (e : BaseExpectation) :
    (Fulfilled e).repeatTimes = e.repeatTimes - 1 := by
  unfold Fulfilled
  by_cases h : e.repeatTimes > 0
  · simp [h]
  · simp [h]
    omega

theorem fulfilledIter_repeatTimes (k : Nat) (e : BaseExpectation) :
    (fulfilledIter k e).repeatTimes = e.repeatTimes - k := by
  induction k generalizing e with
  | zero => simp [fulfilledIter]
  | succ n ih =>
      rw [fulfilledIter, ih, Fulfilled_repeatTimes]
      omega

theorem fulfilledIter_fulfilledTimes (k : Nat) (e : BaseExpectation)
    (h : e.fulfilledTimes < uintMod) :
    (fulfilledIter k e).fulfilledTimes = (e.fulfilledTimes + k) % uintMod := by
  induction k generalizing e with
  | zero =>
      rw [fulfilledIter]
      exact (Nat.mod_eq_of_lt h).symm
  | succ n ih =>
      rw [fulfilledIter, ih (Fulfilled e) (Nat.mod_lt _ (by simp [uintMod]))]
      show ((e.fulfilledTimes + 1) % uintMod + n) % uintMod = _
      rw [Nat.mod_add_mod]
      congr 1
      omega

theorem fulfilledIter_fulfilledTimes_zero (k : Nat) (e : BaseExpectation)
    (h : e.fulfilledTimes = 0) :
    (fulfilledIter k e).fulfilledTimes = k % uintMod := by
  have h1 := fulfilledIter_fulfilledTimes k e (by rw [h]; simp [uintMod])
  rw [h, Nat.zero_add] at h1
  exact h1

/-- C1 (amended): starting from a record created with `repeatTimes = N > 0`,
after exactly `N` calls to `Fulfilled()` the value of `RemainTimes()` is `0`
and any further calls leave it at `0`; with `repeatTimes = 0` it stays `0`
across any number of calls; and `FulfilledTimes()` equals the number of
`Fulfilled()` calls made so far reduced modulo `2 ^ 64` (Go `uint`
wraparound), hence equals it exactly while fewer than `2 ^ 64` calls have
been made. -/
theorem c1_counters (N k j : Nat) :
    (0 < N → RemainTimes (fulfilledIter N (mkExpectation N)) = 0 ∧
      RemainTimes (fulfilledIter (N + j) (mkExpectation N)) = 0) ∧
    RemainTimes (fulfilledIter k (mkExpectation 0)) = 0 ∧
    FulfilledTimes (fulfilledIter k (mkExpectation N)) = k % uintMod := by
  have hrem : ∀ M m : Nat, RemainTimes (fulfilledIter m (mkExpectation M)) = M - m := by
    intro M m
    rw [RemainTimes, fulfilledIter_repeatTimes]
    rfl
  refine ⟨fun _ => ⟨?_, ?_⟩, ?_, ?_⟩
  · rw [hrem]; omega
  · rw [hrem]; omega
  · rw [hrem]; omega
  · exact fulfilledIter_fulfilledTimes_zero k (mkExpectation N) rfl

/-- C1 counterexample: the claim says `FulfilledTimes()` equals the total
number of `Fulfilled()` calls made so far; after `2 ^ 64` calls the Go `uint`
counter has wrapped to `0`, not `2 ^ 64`. -/
theorem c1_counterexample :
    ¬ FulfilledTimes (fulfilledIter (2 ^ 64) (mkExpectation 5)) = 2 ^ 64 := by
  rw [show ∀ e, FulfilledTimes e = e.fulfilledTimes from fun _ => rfl,
    fulfilledIter_fulfilledTimes_zero (2 ^ 64) (mkExpectation 5) rfl,
    show uintMod = 2 ^ 64 from rfl, Nat.mod_self]
  norm_num

/-- C1 witness: the amended theorem applied at `N = 2`, `k = 4`, `j = 1`. -/
theorem c1_counters_witness :
    RemainTimes (fulfilledIter 2 (mkExpectation 2)) = 0 ∧
    RemainTimes (fulfilledIter 3 (mkExpectation 2)) = 0 ∧
    RemainTimes (fulfilledIter 4 (mkExpectation 0)) = 0 ∧
    FulfilledTimes (fulfilledIter 4 (mkExpectation 2)) = 4 % uintMod :=
  ⟨((c1_counters 2 4 1).1 (by decide)).1, ((c1_counters 2 4 1).1 (by decide)).2,
    (c1_counters 2 4 1).2.1, (c1_counters 2 4 1).2.2⟩

/-! ## Theorems: the lexicographic key order used by the formatter -/

theorem lexLe_iff (as : List Char) : ∀ bs : List Char,
    lexLe as bs = true ↔ ¬ List.Lex (· < ·) bs as := by
  induction as with
  | nil =>
    intro bs
    constructor
    · intro _ h
      cases h
    · intro _
      rfl
  | cons a as ih =>
    intro bs
    cases bs with
    | nil =>
      constructor
      · intro h
        exact absurd h (by simp [lexLe])
      · intro h
        exact absurd List.Lex.nil h
    | cons b bs =>
      show (if a < b then true else if b < a then false else lexLe as bs) = true ↔ _
      rcases lt_trichotomy a b with h | h | h
      · rw [if_pos h]
        constructor
        · intro _ hl
          cases hl with
          | cons hl => exact absurd h (lt_irrefl a)
          | rel hr => exact absurd h (lt_asymm hr)
        · intro _
          rfl
      · subst h
        rw [if_neg (lt_irrefl a), if_neg (lt_irrefl a), ih bs]
        constructor
        · intro hn hl
          cases hl with
          | cons hl => exact hn hl
          | rel hr => exact absurd hr (lt_irrefl a)
        · intro hn hl
          exact hn (List.Lex.cons hl)
      · rw [if_neg (lt_asymm h), if_pos h]
        constructor
        · intro hf
          exact absurd hf (by simp)
        · intro hn
          exact absurd (List.Lex.rel h) hn

theorem strLe_iff_le (a b : String) : strLe a b = true ↔ a ≤ b := by
  rw [strLe, lexLe_iff, String.le_iff_toList_le]
  constructor
  · intro h
    exact not_lt.mp h
  · intro h
    exact not_lt.mpr h

instance : IsTrans String (fun a b => strLe a b = true) :=
  ⟨fun a b c hab hbc => (strLe_iff_le a c).mpr
    (le_trans ((strLe_iff_le a b).mp hab) ((strLe_iff_le b c).mp hbc))⟩

instance : IsTotal String (fun a b => strLe a b = true) :=
  ⟨fun a b => (le_total a b).imp (strLe_iff_le a b).mpr (strLe_iff_le b a).mpr⟩

instance : IsAntisymm String (fun a b => strLe a b = true) :=
  ⟨fun a b hab hba =>
    le_antisymm ((strLe_iff_le a b).mp hab) ((strLe_iff_le b a).mp hba)⟩

theorem sortKeys_sorted (ks : List String) :
    List.Sorted (· ≤ ·) (sortKeys ks) :=
  (List.sorted_insertionSort _ ks).imp fun h => (strLe_iff_le _ _).mp h

theorem sortKeys_perm (ks : List String) : (sortKeys ks).Perm ks :=
  List.perm_insertionSort _ ks

theorem sortKeys_eq_of_perm {ks ks' : List String} (h : ks.Perm ks') :
    sortKeys ks = sortKeys ks' :=
  List.eq_of_perm_of_sorted
    ((sortKeys_perm ks).trans (h.trans (sortKeys_perm ks').symm))
    (List.sorted_insertionSort _ ks) (List.sorted_insertionSort _ ks')

/-! ## Theorems: formatter structure (C2, C6, C7, C8) -/

theorem lookup_eq_of_perm {l l' : List (String × MValue)} (h : l.Perm l')
    (hnd : (l.map Prod.fst).Nodup) (k : String) :
    List.lookup k l = List.lookup k l' := by
  induction h with
  | nil => rfl
  | @cons x t t' hp ih =>
    obtain ⟨k1, v1⟩ := x
    rw [List.lookup_cons, List.lookup_cons]
    cases hk : k == k1
    · exact ih (List.nodup_cons.mp hnd).2
    · rfl
  | @swap x y t =>
    obtain ⟨k1, v1⟩ := x
    obtain ⟨k2, v2⟩ := y
    have hne : k2 ≠ k1 := by
      have h1 := (List.nodup_cons.mp hnd).1
      intro he
      exact h1 (by simp [he])
    rw [List.lookup_cons, List.lookup_cons, List.lookup_cons, List.lookup_cons]
    cases hk2 : k == k2 <;> cases hk1 : k == k1 <;>
      simp only [hk2, hk1] <;>
      first
        | rfl
        | exact absurd ((eq_of_beq hk2).symm.trans (eq_of_beq hk1)) hne
  | @trans t1 t2 t3 h12 h23 ih12 ih23 =>
    rw [ih12 hnd, ih23 (((h12.map Prod.fst).nodup_iff).mp hnd)]

theorem headerLines_ext {l l' : List (String × MValue)}
    (h : ∀ k, List.lookup k l = List.lookup k l') :
    ∀ ks, headerLines l ks = headerLines l' ks := by
  intro ks
  induction ks with
  | nil => rfl
  | cons k rest ih =>
    show (match formatValueInline ((List.lookup k l).getD MValue.vNil) with
      | none => ("", false)
      | some s =>
        let r := headerLines l rest
        (indentU ++ indentU ++ k ++ ": " ++ s ++ "\n" ++ r.1, r.2)) = _
    rw [h k, ih]
    rfl

theorem headerBlock_eq_of_perm {l l' : List (String × MValue)} (h : l.Perm l')
    (hnd : (l.map Prod.fst).Nodup) : headerBlock l = headerBlock l' := by
  rw [headerBlock, headerBlock, sortKeys_eq_of_perm (h.map Prod.fst)]
  rw [headerLines_ext (lookup_eq_of_perm h hnd) (sortKeys (l'.map Prod.fst))]

theorem formatRequestTimes_split (svc : Method) (hdr : List (String × MValue))
    (payload : MValue) (T R : Int) :
    (formatRequestTimes svc hdr payload T R).1
      = methodLine svc T R ++ "\n" ++
        (if hdr.length > 0 then (headerBlock hdr).1 else "") ++
        (if (formatRequestTimes svc hdr payload T R).2 then payloadBlock payload
        else "") := by
  by_cases h : hdr.length > 0 <;> simp [formatRequestTimes, h]

theorem callSuffix_length_pos (T R : Int) : 0 < (callSuffix T R).length := by
  have h10 : (" (called: " : String).length = 10 := rfl
  simp [callSuffix, String.length_append, h10]

/-- C2: for every method descriptor, header, payload, `totalCalls` and
`remainingCalls`, the first output line of `formatRequestTimes` is
`methodLine`, and it carries the `(called: T time(s), remaining: R time(s))`
suffix exactly when `remainingCalls > 0` and not
(`totalCalls = 0` and `remainingCalls = 1`); in particular `T = 0, R = 1`
omits the suffix and `T = 2, R = 1` yields
`(called: 2 time(s), remaining: 1 time(s))`. -/
theorem c2_call_suffix (svc : Method) (hdr : List (String × MValue))
    (payload : MValue) (T R : Int) :
    (formatRequestTimes svc hdr payload T R).1
      = methodLine svc T R ++ "\n" ++
        (if hdr.length > 0 then (headerBlock hdr).1 else "") ++
        (if (formatRequestTimes svc hdr payload T R).2 then payloadBlock payload
        else "") ∧
    (methodLine svc T R = baseMethodLine svc ++ callSuffix T R ↔
      (0 < R ∧ ¬ (T = 0 ∧ R = 1))) ∧
    methodLine svc 0 1 = baseMethodLine svc ∧
    methodLine svc 2 1
      = baseMethodLine svc ++ " (called: 2 time(s), remaining: 1 time(s))" := by
  refine ⟨formatRequestTimes_split svc hdr payload T R, ?_, ?_, ?_⟩
  · constructor
    · intro heq
      by_contra hc
      have hcond : ¬ (0 < R ∧ (T ≠ 0 ∨ R ≠ 1)) := by tauto
      rw [methodLine, if_neg hcond] at heq
      have hlen := congrArg String.length heq
      rw [String.length_append, String.length_append] at hlen
      have := callSuffix_length_pos T R
      have h0 : ("" : String).length = 0 := rfl
      omega
    · intro hc
      rw [methodLine, if_pos (by tauto)]
  · rw [methodLine, if_neg (by omega), String.append_empty]
  · rw [methodLine, if_pos (by constructor <;> omega)]
    congr 1

/-- C2 witness: the theorem applied at a concrete descriptor with
`T = 2, R = 1` and `T = 0, R = 1`. -/
theorem c2_call_suffix_witness :
    methodLine svcExample 2 1
      = baseMethodLine svcExample ++ " (called: 2 time(s), remaining: 1 time(s))" ∧
    methodLine svcExample 0 1 = baseMethodLine svcExample ∧
    (0 < (1 : Int) ∧ ¬ ((2 : Int) = 0 ∧ (1 : Int) = 1)) :=
  ⟨(c2_call_suffix svcExample [] MValue.vNil 2 1).2.2.2,
    (c2_call_suffix svcExample [] MValue.vNil 0 1).2.2.1,
    (c2_call_suffix svcExample [] MValue.vNil 2 1).2.1.mp
      ((c2_call_suffix svcExample [] MValue.vNil 2 1).2.2.2)⟩

/-- C6: for every non-empty header, the emitted key sequence is the
lexicographically sorted permutation of the header keys, and the rendered
block is insertion-order independent; concretely, headers
`b ↦ "2", a ↦ "1"` in either insertion order render identically, with the
`a` line before the `b` line. -/
theorem c6_header_sorted (hdr : List (String × MValue)) (hne : hdr ≠ []) :
    List.Sorted (· ≤ ·) (sortKeys (hdr.map Prod.fst)) ∧
    (sortKeys (hdr.map Prod.fst)).Perm (hdr.map Prod.fst) ∧
    (∀ hdr' : List (String × MValue), hdr.Perm hdr' →
      (hdr.map Prod.fst).Nodup → headerBlock hdr = headerBlock hdr') ∧
    (formatRequestTimes svcExample
        [("b", MValue.str "2"), ("a", MValue.str "1")] MValue.vNil 0 0).1
      = (formatRequestTimes svcExample
        [("a", MValue.str "1"), ("b", MValue.str "2")] MValue.vNil 0 0).1 ∧
    (formatRequestTimes svcExample
        [("b", MValue.str "2"), ("a", MValue.str "1")] MValue.vNil 0 0).1
      = "Unary grpctest.ItemService/GetItem\n    with header:\n        a: 1\n        b: 2\n" := by
  refine ⟨sortKeys_sorted _, sortKeys_perm _,
    fun hdr' hp hnd => headerBlock_eq_of_perm hp hnd, by decide, by decide⟩

/-- C6 witness: the theorem applied to the concrete two-key header. -/
theorem c6_header_sorted_witness :
    (formatRequestTimes svcExample
        [("b", MValue.str "2"), ("a", MValue.str "1")] MValue.vNil 0 0).1
      = (formatRequestTimes svcExample
        [("a", MValue.str "1"), ("b", MValue.str "2")] MValue.vNil 0 0).1 ∧
    (formatRequestTimes svcExample
        [("b", MValue.str "2"), ("a", MValue.str "1")] MValue.vNil 0 0).1
      = "Unary grpctest.ItemService/GetItem\n    with header:\n        a: 1\n        b: 2\n" :=
  (c6_header_sorted [("b", MValue.str "2"), ("a", MValue.str "1")]
    (List.cons_ne_nil _ _)).2.2.2

/-- C7 (amended): a payload that is neither nil nor a nil-equivalent and
whose formatted body is non-empty produces the `with payload` block (with
the type tag) followed by the indented body; the block is appended to the
output whenever no header value panicked. -/
theorem c7_payload_block (svc : Method) (hdr : List (String × MValue))
    (payload : MValue) (T R : Int)
    (hnil : IsNil payload = false) (hbody : formatValue payload ≠ "") :
    payloadBlock payload
      = indentU ++ "with payload" ++ formatType payload ++ "\n" ++
        indentU ++ indentU ++ formatValue payload ++ "\n" ∧
    ((formatRequestTimes svc hdr payload T R).2 = true →
      (formatRequestTimes svc hdr payload T R).1
        = methodLine svc T R ++ "\n" ++
          (if hdr.length > 0 then (headerBlock hdr).1 else "") ++
          payloadBlock payload) := by
  constructor
  · rw [payloadBlock, if_neg (by simp [hnil]), if_neg hbody]
  · intro hok
    rw [formatRequestTimes_split svc hdr payload T R, hok, if_pos rfl]

/-- C7 counterexample: the claim asserts a `with payload` line for every
non-nil, non-nil-equivalent payload; the empty string is such a payload,
yet `bodyStr != ""` fails and the formatter emits no payload block. -/
theorem c7_counterexample :
    IsNil (MValue.str "") = false ∧
    (formatRequestTimes svcExample [] (MValue.str "") 0 0).1
      = "Unary grpctest.ItemService/GetItem\n" := by
  constructor
  · rfl
  · decide

/-- C7 witness: the amended theorem applied to the exact-matcher payload
`hi` at `T = 2, R = 1`, fully evaluated. -/
theorem c7_payload_block_witness :
    (formatRequestTimes svcExample [] (MValue.exact "hi") 2 1).1
      = "Unary grpctest.ItemService/GetItem (called: 2 time(s), remaining: 1 time(s))\n    with payload\n        hi\n" := by
  have h := (c7_payload_block svcExample [] (MValue.exact "hi") 2 1
    (by decide) (by decide)).2 (by decide)
  rw [h]
  decide

/-- C8: formatting a decorating (callback) matcher wrapping an exact matcher
for the byte sequence `hello` yields the same text as formatting the raw
string `hello` directly. -/
theorem c8_callback_roundtrip :
    formatValue (MValue.callback (MValue.exact "hello"))
      = formatValue (MValue.str "hello") := rfl

/-! ## Theorems: `parseMethod` (C3) -/

theorem parseMethodFromURL_missing (u : URL) (h : trimLeftSlash u.path = "") :
    parseMethodFromURL u = Except.error ParseErr.missingMethod := by
  simp [parseMethodFromURL, h]

/-- C3 (amended): `parseMethod` applied to
`dns:///localhost:50051/pkg.Service/Method` returns the target `dns:` and
the method path `/localhost:50051/pkg.Service/Method` — `url.Parse` leaves
the authority between the second and third slash empty, so
`localhost:50051` lands in the path and the rebuilt target keeps only the
scheme; and for every URL whose path is empty or `/` after normalizing the
leading slashes to exactly one (equivalently, whose path trims to the empty
string), `parseMethod` returns the missing-method error. -/
theorem c3_parse_method :
    parseMethod "dns:///localhost:50051/pkg.Service/Method"
      = Except.ok ("dns:", "/localhost:50051/pkg.Service/Method") ∧
    (∀ u : URL, trimLeftSlash u.path = "" →
      parseMethodFromURL u = Except.error ParseErr.missingMethod) ∧
    (∀ s : String, trimLeftSlash (urlParse s).path = "" →
      parseMethod s = Except.error ParseErr.missingMethod) := by
  refine ⟨by rfl, fun u h => parseMethodFromURL_missing u h, fun s h => ?_⟩
  rw [parseMethod]
  exact parseMethodFromURL_missing _ h

/-- C3 counterexample: the claim predicts target `dns:///localhost:50051`
and path `/pkg.Service/Method`; the code produces target `dns:` and path
`/localhost:50051/pkg.Service/Method`. -/
theorem c3_counterexample :
    parseMethod "dns:///localhost:50051/pkg.Service/Method"
      = Except.ok ("dns:", "/localhost:50051/pkg.Service/Method") ∧
    (("dns:", "/localhost:50051/pkg.Service/Method") : String × String)
      ≠ ("dns:///localhost:50051", "/pkg.Service/Method") := by
  constructor
  · rfl
  · decide

/-- C3 witness: the amended theorem applied to the concrete URL and to the
all-slash-path URL `dns:///`. -/
theorem c3_parse_method_witness :
    parseMethod "dns:///localhost:50051/pkg.Service/Method"
      = Except.ok ("dns:", "/localhost:50051/pkg.Service/Method") ∧
    parseMethod "dns:///" = Except.error ParseErr.missingMethod :=
  ⟨c3_parse_method.1, c3_parse_method.2.2 "dns:///" (by decide)⟩

/-! ## Theorems: `RecvAll` (C4, C5, C10) -/

theorem newMessageValue_counter (t : RType) : ∀ c, (newMessageValue t c).2 = c + 1 := by
  induction t with
  | base => intro c; rfl
  | ptr t ih => intro c; exact ih c
  | slice t _ => intro c; rfl

theorem newSliceMessageValue_base (t : RType) (m : Nat) :
    ∀ c, newSliceMessageValue t (RValue.base m) c
      = (wrapPtrs t m c, c + ptrDepth t) := by
  induction t with
  | base => intro c; rfl
  | ptr t ih =>
    intro c
    simp only [newSliceMessageValue, ih (c + 1), wrapPtrs, ptrDepth,
      Prod.mk.injEq]
    exact ⟨trivial, by omega⟩
  | slice t _ => intro c; rfl

theorem recvLoop_none (t : RType) : ∀ (msgs : List Nat) (acc : List RValue) (c : Nat),
    recvLoop t msgs none acc c
      = (Except.ok (acc ++ buildL t msgs c),
        c + msgs.length * (ptrDepth t + 1) + 1) := by
  intro msgs
  induction msgs with
  | nil =>
    intro acc c
    simp [recvLoop, newMessageValue_counter, buildL]
  | cons m rest ih =>
    intro acc c
    simp only [recvLoop, newMessageValue_counter, newSliceMessageValue_base]
    rw [ih (acc ++ [wrapPtrs t m (c + 1)]) (c + 1 + ptrDepth t)]
    have h1 : c + 1 + ptrDepth t = c + ptrDepth t + 1 := by omega
    rw [h1]
    simp only [buildL, List.append_assoc, List.singleton_append,
      List.length_cons, Prod.mk.injEq]
    exact ⟨trivial, by ring⟩

theorem recvLoop_some (t : RType) (e : String) :
    ∀ (msgs : List Nat) (acc : List RValue) (c : Nat),
    (recvLoop t msgs (some e) acc c).1
      = Except.error ("could not recv msg: " ++ e) := by
  intro msgs
  induction msgs with
  | nil => intro acc c; rfl
  | cons m rest ih =>
    intro acc c
    simp only [recvLoop]
    exact ih _ _

theorem payloadOf_wrapPtrs (t : RType) (m : Nat) :
    ∀ c, payloadOf (wrapPtrs t m c) = some m := by
  induction t with
  | base => intro c; rfl
  | ptr t ih => intro c; exact ih (c + 1)
  | slice t _ => intro c; rfl

theorem buildL_length (t : RType) : ∀ (msgs : List Nat) (c : Nat),
    (buildL t msgs c).length = msgs.length := by
  intro msgs
  induction msgs with
  | nil => intro c; rfl
  | cons m rest ih => intro c; simp [buildL, ih]

theorem buildL_map_payload (t : RType) : ∀ (msgs : List Nat) (c : Nat),
    (buildL t msgs c).map payloadOf = msgs.map some := by
  intro msgs
  induction msgs with
  | nil => intro c; rfl
  | cons m rest ih =>
    intro c
    simp [buildL, payloadOf_wrapPtrs, ih]

theorem chainIds_wrapPtrs (t : RType) (m : Nat) :
    ∀ c, chainIds (wrapPtrs t m c) = List.range' c (ptrDepth t) := by
  induction t with
  | base => intro c; rfl
  | ptr t ih =>
    intro c
    show c :: chainIds (wrapPtrs t m (c + 1)) = List.range' c (ptrDepth t + 1)
    rw [ih (c + 1)]
    rfl
  | slice t _ => intro c; rfl

theorem idsList_cons (v : RValue) (l : List RValue) :
    idsList (v :: l) = chainIds v ++ idsList l := rfl

theorem idsList_buildL_bounds (t : RType) : ∀ (msgs : List Nat) (c : Nat),
    ∀ i ∈ idsList (buildL t msgs c),
      c ≤ i ∧ i < c + msgs.length * (ptrDepth t + 1) := by
  intro msgs
  induction msgs with
  | nil =>
    intro c i hi
    exact absurd hi (by simp [buildL, idsList])
  | cons m rest ih =>
    intro c i hi
    rw [buildL, idsList_cons, chainIds_wrapPtrs] at hi
    rw [List.length_cons, Nat.succ_mul]
    rcases List.mem_append.mp hi with h | h
    · have := List.mem_range'_1.mp h
      omega
    · have := ih (c + ptrDepth t + 1) i h
      omega

theorem idsList_buildL_nodup (t : RType) : ∀ (msgs : List Nat) (c : Nat),
    (idsList (buildL t msgs c)).Nodup := by
  intro msgs
  induction msgs with
  | nil => intro c; simp [buildL, idsList]
  | cons m rest ih =>
    intro c
    rw [buildL, idsList_cons, chainIds_wrapPtrs]
    refine List.Nodup.append (List.nodup_range' _ _) (ih _) ?_
    intro i hi hi'
    have h1 := List.mem_range'_1.mp hi
    have h2 := idsList_buildL_bounds t rest (c + ptrDepth t + 1) i hi'
    omega

/-- C4: for every element type, initial slice contents, message sequence
(of any length `k`) and allocation counter, the `RecvAll` handler on a
stream that yields the messages and then `EOF` succeeds with `nil`, writes
back a slice of exactly `k` elements whose payloads are the received
messages in order, and every pointer cell of those elements is freshly
allocated during the call (all allocation identifiers are at least the
starting counter and pairwise distinct, through every level of pointer
indirection). -/
theorem c4_recv_all (elemT : RType) (cell : RValue) (msgs : List Nat) (c : Nat) :
    RecvAll (OutArg.ptrTo (RType.slice elemT) cell) msgs none c
      = (Except.ok (), OutArg.ptrTo (RType.slice elemT)
          (RValue.slice elemT (buildL elemT msgs c)),
        c + msgs.length * (ptrDepth elemT + 1) + 1) ∧
    (buildL elemT msgs c).length = msgs.length ∧
    (buildL elemT msgs c).map payloadOf = msgs.map some ∧
    (∀ i ∈ idsList (buildL elemT msgs c), c ≤ i) ∧
    (idsList (buildL elemT msgs c)).Nodup := by
  refine ⟨?_, buildL_length elemT msgs c, buildL_map_payload elemT msgs c,
    fun i hi => (idsList_buildL_bounds elemT msgs c i hi).1,
    idsList_buildL_nodup elemT msgs c⟩
  simp [RecvAll, recvLoop_none]

/-- C4 witness: draining three messages into a `*[]*T` target from counter
`0` produces exactly the three fresh pointer cells `1`, `3`, `5` in receive
order. -/
theorem c4_recv_all_witness :
    RecvAll (OutArg.ptrTo (RType.slice (RType.ptr RType.base))
        (RValue.slice (RType.ptr RType.base) [])) [10, 20, 30] none 0
      = (Except.ok (), OutArg.ptrTo (RType.slice (RType.ptr RType.base))
          (RValue.slice (RType.ptr RType.base)
            [RValue.ptr 1 (RValue.base 10), RValue.ptr 3 (RValue.base 20),
              RValue.ptr 5 (RValue.base 30)]), 7) :=
  ((c4_recv_all (RType.ptr RType.base)
    (RValue.slice (RType.ptr RType.base) []) [10, 20, 30] 0).1).trans rfl

/-- C5 (amended): the `RecvAll` handler rejects a nil `out` and a
non-pointer `out` with `<type> is not a pointer`, a pointer to a non-slice
with `<type> is not a slice`, and wraps a non-`EOF` receive error with the
`could not recv msg: ` context, in every case returning an error rather
than crashing. -/
theorem c5_recv_errors :
    (∀ msgs term c, (RecvAll OutArg.nilIface msgs term c).1
      = Except.error "<nil> is not a pointer") ∧
    (∀ t msgs term c, (RecvAll (OutArg.nonPtr t) msgs term c).1
      = Except.error (goTypeName t ++ " is not a pointer")) ∧
    (∀ pt cell msgs term c, (∀ et, pt ≠ RType.slice et) →
      (RecvAll (OutArg.ptrTo pt cell) msgs term c).1
        = Except.error ("*" ++ goTypeName pt ++ " is not a slice")) ∧
    (∀ elemT cell msgs e c,
      (RecvAll (OutArg.ptrTo (RType.slice elemT) cell) msgs (some e) c).1
        = Except.error ("could not recv msg: " ++ e)) := by
  refine ⟨fun _ _ _ => rfl, fun _ _ _ _ => rfl, ?_, ?_⟩
  · intro pt cell msgs term c h
    cases pt with
    | base => rfl
    | ptr t => rfl
    | slice et => exact absurd rfl (h et)
  · intro elemT cell msgs e c
    simp [RecvAll, recvLoop_some]

/-- C5 counterexample: the wrap context emitted by the code is
`could not recv msg: `, not the claim's `could not receive message`. -/
theorem c5_counterexample :
    (RecvAll (OutArg.ptrTo (RType.slice RType.base) (RValue.slice RType.base []))
        [] (some "boom") 0).1 = Except.error "could not recv msg: boom" ∧
    ("could not recv msg: boom" : String) ≠ "could not receive message: boom" := by
  constructor
  · rfl
  · decide

/-- C5 witness: the amended theorem applied to each misuse shape and to a
failing stream. -/
theorem c5_recv_errors_witness :
    (RecvAll OutArg.nilIface [] none 0).1
      = Except.error "<nil> is not a pointer" ∧
    (RecvAll (OutArg.nonPtr (RType.slice RType.base)) [] none 0).1
      = Except.error "[]T is not a pointer" ∧
    (RecvAll (OutArg.ptrTo RType.base (RValue.base 0)) [] none 0).1
      = Except.error "*T is not a slice" ∧
    (RecvAll (OutArg.ptrTo (RType.slice RType.base) (RValue.slice RType.base []))
        [1] (some "boom") 0).1 = Except.error "could not recv msg: boom" :=
  ⟨c5_recv_errors.1 [] none 0,
    (c5_recv_errors.2.1 (RType.slice RType.base) [] none 0).trans rfl,
    (c5_recv_errors.2.2.1 RType.base (RValue.base 0) [] none 0
      (fun et h => RType.noConfusion h)).trans rfl,
    (c5_recv_errors.2.2.2 RType.base (RValue.slice RType.base []) [1] "boom" 0).trans
      rfl⟩

/-- C10: the `RecvAll` handler is atomic with respect to the caller's
container: whenever it returns an error, the argument (in particular the
pointee cell) is left exactly as it was; the cell is replaced only on the
successful end-of-stream path, where `out` was a pointer to a slice and the
new contents are the accumulated slice. -/
theorem c10_atomic (out : OutArg) (msgs : List Nat) (term : Option String) (c : Nat) :
    (∀ e, (RecvAll out msgs term c).1 = Except.error e →
      (RecvAll out msgs term c).2.1 = out) ∧
    (∀ u, (RecvAll out msgs term c).1 = Except.ok u →
      ∃ elemT cell l, out = OutArg.ptrTo (RType.slice elemT) cell ∧
        (RecvAll out msgs term c).2.1
          = OutArg.ptrTo (RType.slice elemT) (RValue.slice elemT l)) := by
  cases out with
  | nilIface =>
    exact ⟨fun e _ => rfl, fun u hu => absurd hu (by simp [RecvAll])⟩
  | nonPtr t =>
    exact ⟨fun e _ => rfl, fun u hu => absurd hu (by simp [RecvAll])⟩
  | ptrTo pt cell =>
    cases pt with
    | base =>
      exact ⟨fun e _ => rfl, fun u hu => absurd hu (by simp [RecvAll])⟩
    | ptr t =>
      exact ⟨fun e _ => rfl, fun u hu => absurd hu (by simp [RecvAll])⟩
    | slice elemT =>
      constructor
      · intro e he
        cases hr : (recvLoop elemT msgs term [] c).1 with
        | error e2 => simp [RecvAll, hr]
        | ok acc => simp [RecvAll, hr] at he
      · intro u hu
        cases hr : (recvLoop elemT msgs term [] c).1 with
        | error e2 => simp [RecvAll, hr] at hu
        | ok acc => exact ⟨elemT, cell, acc, rfl, by simp [RecvAll, hr]⟩

/-- C10 witness: the atomicity theorem applied to a failing stream behind a
pointer-to-slice (the cell keeps its prior contents) and to a misuse
argument. -/
theorem c10_atomic_witness :
    (RecvAll (OutArg.ptrTo (RType.slice RType.base)
        (RValue.slice RType.base [RValue.base 9])) [1, 2] (some "boom") 0).2.1
      = OutArg.ptrTo (RType.slice RType.base)
        (RValue.slice RType.base [RValue.base 9]) ∧
    (RecvAll OutArg.nilIface [1] none 0).2.1 = OutArg.nilIface :=
  ⟨(c10_atomic (OutArg.ptrTo (RType.slice RType.base)
      (RValue.slice RType.base [RValue.base 9])) [1, 2] (some "boom") 0).1
      "could not recv msg: boom" (by rfl),
    (c10_atomic OutArg.nilIface [1] none 0).1 "<nil> is not a pointer" (by rfl)⟩
